import Mathlib

/- Shallow embedding of repo-search's incremental indexing engine:
   SearchEngine.index_repository in src/repo_search/search/engine.py.
   The run is modelled as a pure function from the persisted state, the
   freshly observed commit hash, the four force flags and the behaviour of
   the collaborators (fetcher, chunker, embedding store) to a trace of
   database operations plus the run's outcome. -/

namespace RepoSearch

/-- A stored chunk record: the fields of DocumentChunk that the indexing
decisions depend on (file path the chunk references, and its content). -/
structure Chunk where
  file_path : String
  content : String
deriving DecidableEq

/-- RepositoryInfo (repo_search/models.py): the persisted indexing state of
one repository, as read and written by index_repository. -/
structure RepositoryInfo where
  commit_hash : Option String
  download_successful : Bool
  chunking_successful : Bool
  embedding_successful : Bool
  file_hashes : List (String × String)
  num_files : Nat
  num_chunks : Nat
  last_indexed : Option Nat
deriving DecidableEq

/-- Database operations issued by index_repository, recorded in call order:
db.add_repository, db.delete_file_chunks, db.delete_repository_chunks and
db.store_chunks. -/
inductive DbOp where
  | add_repository (r : RepositoryInfo)
  | delete_file_chunks (path : String)
  | delete_repository_chunks
  | store_chunks (cs : List Chunk)
deriving DecidableEq

/-- The information returned by repo_fetcher.fetch_repository_contents on
success: the per-file content hashes and the file count. -/
structure DownloadedInfo where
  file_hashes : List (String × String)
  num_files : Nat
deriving DecidableEq

/-- Outcome of repo_fetcher.fetch_repository_contents: an exception, or the
downloaded snapshot (in which case repo_dir is set). -/
inductive FetchOutcome where
  | fail
  | ok (dl : DownloadedInfo)
deriving DecidableEq

/-- Outcome of chunker.text_chunker.chunk_file on one file: a chunk list on
success, a UnicodeDecodeError, or any other exception. -/
inductive FileChunkResult where
  | ok (cs : List Chunk)
  | decodeError
  | otherError
deriving DecidableEq

/-- Outcome of iterating the chunker.chunk_repository generator: it yields
chunks and then either finishes, raises UnicodeDecodeError, or raises some
other exception (after having yielded a prefix of the chunks). -/
inductive RepoChunkResult where
  | ok (cs : List Chunk)
  | decodeError (cs : List Chunk)
  | otherError (cs : List Chunk)
deriving DecidableEq

/-- Behaviour of the collaborators during one index_repository run. -/
structure Env where
  fetch : FetchOutcome
  fileExists : String → Bool
  isTextFile : String → Bool
  chunkFile : String → FileChunkResult
  chunkAllResult : RepoChunkResult
  embedOk : Bool
  rmtreeOk : Bool
  nowTime : Nat

/-- Everything observable about one index_repository run: the database
operations in order, the returned value (none when an exception propagates),
which stages executed, and the life cycle of the scratch directory. -/
structure RunResult where
  ops : List DbOp
  returned : Option RepositoryInfo
  raised : Bool
  downloadExecuted : Bool
  chunkStageExecuted : Bool
  diffScoped : Bool
  embedStageExecuted : Bool
  chunksProduced : List Chunk
  tempDirCreated : Bool
  cleanupAttempted : Bool
  tempDirRemoved : Bool
deriving DecidableEq

/-- Python dict membership and access on a path-to-hash mapping: the hash
stored for a path, if present. -/
def lookupHash : List (String × String) → String → Option String
  | [], _ => none
  | q :: rest, p => if q.1 == p then some q.2 else lookupHash rest p

/-- engine.py lines 169-173: files present in new_hashes that are absent
from old_hashes or carry a different hash (new or modified files). -/
def files_to_chunk (old_hashes new_hashes : List (String × String)) : List String :=
  (new_hashes.filter (fun pr =>
    match lookupHash old_hashes pr.1 with
    | none => true
    | some h => h != pr.2)).map Prod.fst

/-- engine.py lines 176-179: files present in old_hashes but not in
new_hashes (deleted files). -/
def files_to_delete (old_hashes new_hashes : List (String × String)) : List String :=
  (old_hashes.filter (fun pr => (lookupHash new_hashes pr.1).isNone)).map Prod.fst

/-- Modelled from the spec: repo_fetcher.get_text_files is not under src/;
per the spec, file_hashes keys are exactly the set of text files of the
downloaded snapshot, so enumerating the text files of the downloaded tree
yields the keys of the downloaded file-hash mapping. -/
def textFilesOf (file_hashes : List (String × String)) : List String :=
  file_hashes.map Prod.fst

/-- Modelled from the spec: repo_fetcher.get_repository_info is not under
src/; the snapshot provider resolves only the content identity (the latest
commit hash), and a freshly constructed RepositoryInfo has all stage flags
false, empty file hashes, zero counters and no timestamp. -/
def get_repository_info (commit : String) : RepositoryInfo :=
  { commit_hash := some commit
    download_successful := false
    chunking_successful := false
    embedding_successful := false
    file_hashes := []
    num_files := 0
    num_chunks := 0
    last_indexed := none }

/-- Python truthiness of existing_repo.commit_hash (None and the empty
string are falsy). -/
def commitTruthy : Option String → Bool
  | none => false
  | some s => !(s == "")

/-- Python equality existing_repo.commit_hash == current commit hash, where
the current hash is always a string. -/
def commitEq : Option String → String → Bool
  | none, _ => false
  | some s, c => s == c

/-- Outcome of the per-file chunk loop of engine.py lines 224-236: it ran
to completion, or it was aborted by a UnicodeDecodeError, or it was aborted
by another exception. -/
inductive LoopOutcome where
  | done
  | decodeAbort
  | errorAbort
deriving DecidableEq

def loopOk : LoopOutcome → Bool
  | LoopOutcome.done => true
  | _ => false

def loopRaises : LoopOutcome → Bool
  | LoopOutcome.errorAbort => true
  | _ => false

/-- Chunks returned by a chunk_file call (none when it raises). -/
def fileChunksOf : FileChunkResult → List Chunk
  | FileChunkResult.ok cs => cs
  | _ => []

/-- Chunks accumulated from the chunk_repository generator, including the
prefix yielded before an exception. -/
def chunkAllChunks : RepoChunkResult → List Chunk
  | RepoChunkResult.ok cs => cs
  | RepoChunkResult.decodeError cs => cs
  | RepoChunkResult.otherError cs => cs

def chunkAllOk : RepoChunkResult → Bool
  | RepoChunkResult.ok _ => true
  | _ => false

def chunkAllRaises : RepoChunkResult → Bool
  | RepoChunkResult.otherError _ => true
  | _ => false

/-- engine.py lines 224-236: iterate over files_to_chunk; for each existing
file, delete its old chunks, and if it is a text file, chunk it. The first
exception from chunk_file aborts the loop (the try block wraps the whole
loop): a UnicodeDecodeError is swallowed by the handler, anything else is
re-raised. Returns the delete operations issued, the chunks accumulated,
and how the loop ended. -/
def chunkLoop (env : Env) : List String → List DbOp × List Chunk × LoopOutcome
  | [] => ([], [], LoopOutcome.done)
  | p :: rest =>
    if env.fileExists p then
      if env.isTextFile p then
        match env.chunkFile p with
        | FileChunkResult.ok cs =>
          let r := chunkLoop env rest
          (DbOp.delete_file_chunks p :: r.1, cs ++ r.2.1, r.2.2)
        | FileChunkResult.decodeError => ([DbOp.delete_file_chunks p], [], LoopOutcome.decodeAbort)
        | FileChunkResult.otherError => ([DbOp.delete_file_chunks p], [], LoopOutcome.errorAbort)
      else
        let r := chunkLoop env rest
        (DbOp.delete_file_chunks p :: r.1, r.2.1, r.2.2)
    else
      chunkLoop env rest

/-- Intermediate result of the chunk stage (engine.py step 2). -/
structure Stage2Out where
  ops : List DbOp
  chunks : List Chunk
  ri : RepositoryInfo
  raised : Bool
  executed : Bool
  diffScoped : Bool
deriving DecidableEq

/-- engine.py lines 210-266 (step 2: chunk repository if needed). The stage
body runs only when chunking is needed and repo_dir is set (which happens
only when the download stage ran and succeeded). When files_to_chunk is
nonempty and no forced re-chunk, chunks only those files after removing the
chunks of deleted files; otherwise deletes all existing chunks (when the
repository was already known) and chunks the whole tree. Exceptions set
chunking_successful to false and persist; only non-UnicodeDecodeError
exceptions propagate. -/
def stage2 (existing : Option RepositoryInfo) (ri : RepositoryInfo)
    (repoDirPresent : Bool) (need_chunking force_rechunk : Bool)
    (ftc ftd : List String) (env : Env) : Stage2Out :=
  if need_chunking && repoDirPresent then
    if !ftc.isEmpty && !force_rechunk then
      let delOps := ftd.map DbOp.delete_file_chunks
      let lr := chunkLoop env ftc
      let ri2 := { ri with chunking_successful := loopOk lr.2.2 }
      { ops := delOps ++ lr.1 ++ [DbOp.add_repository ri2]
        chunks := lr.2.1
        ri := ri2
        raised := loopRaises lr.2.2
        executed := true
        diffScoped := true }
    else
      let delOps := if existing.isSome then [DbOp.delete_repository_chunks] else []
      let ri2 := { ri with chunking_successful := chunkAllOk env.chunkAllResult }
      { ops := delOps ++ [DbOp.add_repository ri2]
        chunks := chunkAllChunks env.chunkAllResult
        ri := ri2
        raised := chunkAllRaises env.chunkAllResult
        executed := true
        diffScoped := false }
  else
    { ops := [], chunks := [], ri := ri, raised := false, executed := false, diffScoped := false }

/-- The condition of engine.py line 269: embedding is needed and either
chunks were produced or chunking was not needed (and the run did not
already abort inside the chunk stage). -/
def stage3Embed (s2 : Stage2Out) (need_chunking need_embedding : Bool) : Bool :=
  !s2.raised && need_embedding && (!s2.chunks.isEmpty || !need_chunking)

/-- Whether the run propagates an exception: either the chunk stage
re-raised, or store_chunks failed inside the embed stage (which is only
called when the chunk list is nonempty). -/
def stage3Raised (s2 : Stage2Out) (need_chunking need_embedding : Bool) (env : Env) : Bool :=
  s2.raised || (stage3Embed s2 need_chunking need_embedding && !s2.chunks.isEmpty && !env.embedOk)

/-- The repository state after the embed stage (engine.py lines 272-282):
on success num_chunks is updated when chunks were stored and
embedding_successful and last_indexed are set; on store_chunks failure
embedding_successful is set to false. -/
def stage3Ri (s2 : Stage2Out) (need_chunking need_embedding : Bool) (env : Env) : RepositoryInfo :=
  if stage3Embed s2 need_chunking need_embedding then
    if !s2.chunks.isEmpty then
      if env.embedOk then
        { s2.ri with
          num_chunks := s2.chunks.length
          embedding_successful := true
          last_indexed := some env.nowTime }
      else
        { s2.ri with embedding_successful := false }
    else
      { s2.ri with embedding_successful := true, last_indexed := some env.nowTime }
  else s2.ri

/-- Database operations of the embed stage: store_chunks is invoked only
when the chunk list is nonempty, and the updated state is persisted both on
success and on failure. -/
def stage3Ops (s2 : Stage2Out) (need_chunking need_embedding : Bool) (env : Env) : List DbOp :=
  if stage3Embed s2 need_chunking need_embedding then
    if !s2.chunks.isEmpty then
      [DbOp.store_chunks s2.chunks, DbOp.add_repository (stage3Ri s2 need_chunking need_embedding env)]
    else [DbOp.add_repository (stage3Ri s2 need_chunking need_embedding env)]
  else []

/-- engine.py step 3 plus cleanup (lines 268-292), assembled from the chunk
stage's result. The scratch directory is removed only on the normal-return
path (lines 285-291, reached only when no exception propagates), where an
rmtree failure is logged and not propagated. -/
def stage3 (s2 : Stage2Out) (need_chunking need_embedding : Bool)
    (opsSoFar : List DbOp) (dlExec : Bool) (env : Env) : RunResult :=
  { ops := opsSoFar ++ s2.ops ++ stage3Ops s2 need_chunking need_embedding env
    returned :=
      if stage3Raised s2 need_chunking need_embedding env then none
      else some (stage3Ri s2 need_chunking need_embedding env)
    raised := stage3Raised s2 need_chunking need_embedding env
    downloadExecuted := dlExec
    chunkStageExecuted := s2.executed
    diffScoped := s2.diffScoped
    embedStageExecuted := stage3Embed s2 need_chunking need_embedding
    chunksProduced := s2.chunks
    tempDirCreated := dlExec
    cleanupAttempted := !stage3Raised s2 need_chunking need_embedding env && dlExec
    tempDirRemoved := !stage3Raised s2 need_chunking need_embedding env && dlExec && env.rmtreeOk }

/-- engine.py steps 2 and 3 plus cleanup, entered after the download step. -/
def afterDownload (existing : Option RepositoryInfo) (ri : RepositoryInfo)
    (repoDirPresent : Bool) (need_chunking need_embedding force_rechunk : Bool)
    (ftc ftd : List String) (opsSoFar : List DbOp) (dlExec : Bool)
    (env : Env) : RunResult :=
  stage3 (stage2 existing ri repoDirPresent need_chunking force_rechunk ftc ftd env)
    need_chunking need_embedding opsSoFar dlExec env

/-- engine.py lines 162-203: what happens after a successful fetch. The
change sets are computed against the previously persisted file hashes when
those exist (engine.py lines 163-184), otherwise all text files of the
downloaded tree are scheduled for chunking (lines 185-193); the state is
updated with the fresh hashes, persisted, and the run continues with the
chunk and embed stages. -/
def downloadOkRun (existing : Option RepositoryInfo) (ri0 : RepositoryInfo)
    (need_chunking need_embedding force_rechunk : Bool)
    (dl : DownloadedInfo) (env : Env) : RunResult :=
  let haveOld := match existing with
    | some ex => !ex.file_hashes.isEmpty
    | none => false
  let ftc := match existing with
    | some ex =>
      if ex.file_hashes.isEmpty then textFilesOf dl.file_hashes
      else files_to_chunk ex.file_hashes dl.file_hashes
    | none => textFilesOf dl.file_hashes
  let ftd := match existing with
    | some ex =>
      if ex.file_hashes.isEmpty then []
      else files_to_delete ex.file_hashes dl.file_hashes
    | none => []
  let need_chunking2 :=
    if haveOld then (if !ftc.isEmpty && !force_rechunk then true else need_chunking)
    else true
  let ri1 := { ri0 with
    num_files := dl.num_files
    download_successful := true
    file_hashes := dl.file_hashes }
  afterDownload existing ri1 true need_chunking2 need_embedding force_rechunk
    ftc ftd [DbOp.add_repository ri1] true env

/-- engine.py step 1 (lines 151-208) followed by the rest of the run. When
a download is needed, a scratch directory is created and the fetch is
attempted: on failure download_successful is set to false, persisted, and
the exception propagates (nothing downstream runs, and the scratch
directory is not removed). On success the run continues via downloadOkRun. -/
def runPipeline (existing : Option RepositoryInfo) (ri0 : RepositoryInfo)
    (need_download need_chunking need_embedding force_rechunk : Bool)
    (env : Env) : RunResult :=
  if need_download then
    match env.fetch with
    | FetchOutcome.fail =>
      let ri1 := { ri0 with download_successful := false }
      { ops := [DbOp.add_repository ri1]
        returned := none
        raised := true
        downloadExecuted := true
        chunkStageExecuted := false
        diffScoped := false
        embedStageExecuted := false
        chunksProduced := []
        tempDirCreated := true
        cleanupAttempted := false
        tempDirRemoved := false }
    | FetchOutcome.ok dl => downloadOkRun existing ri0 need_chunking need_embedding force_rechunk dl env
  else
    afterDownload existing ri0 false need_chunking need_embedding force_rechunk
      [] [] [] false env

/-- engine.py lines 126-132: the early return taken when all three stages
can be skipped; the existing state is returned untouched and nothing is
persisted. -/
def skipRecord (ex : RepositoryInfo) : RunResult :=
  { ops := []
    returned := some ex
    raised := false
    downloadExecuted := false
    chunkStageExecuted := false
    diffScoped := false
    embedStageExecuted := false
    chunksProduced := []
    tempDirCreated := false
    cleanupAttempted := false
    tempDirRemoved := false }

/-- SearchEngine.index_repository (engine.py lines 45-292): force_refresh
implies all three force flags; the fresh repository info starts from
get_repository_info; when the persisted commit hash is truthy, equal to the
current one and no refresh is forced, the need flags are derived from the
persisted stage flags (chunking considered only when download is skipped,
embedding only when chunking is skipped), and a fully skippable run returns
the existing state untouched; otherwise the fresh info inherits the old
file hashes and counters and the full pipeline is requested. -/
def index_repository (existing : Option RepositoryInfo) (currentCommit : String)
    (force_refresh force_redownload0 force_rechunk0 force_reembed0 : Bool)
    (env : Env) : RunResult :=
  let force_redownload := force_redownload0 || force_refresh
  let force_rechunk := force_rechunk0 || force_refresh
  let force_reembed := force_reembed0 || force_refresh
  let current := get_repository_info currentCommit
  match existing with
  | some ex =>
    if commitTruthy ex.commit_hash && commitEq ex.commit_hash currentCommit
        && !force_refresh then
      let need_download := force_redownload || !ex.download_successful
      let need_chunking :=
        if need_download then true else force_rechunk || !ex.chunking_successful
      let need_embedding :=
        if need_download || need_chunking then true
        else force_reembed || !ex.embedding_successful
      if !need_download && !need_chunking && !need_embedding then
        skipRecord ex
      else
        runPipeline (some ex) current need_download need_chunking need_embedding
          force_rechunk env
    else
      let riB := { current with
        file_hashes := (if ex.file_hashes.isEmpty then current.file_hashes else ex.file_hashes)
        num_chunks := ex.num_chunks
        num_files := ex.num_files }
      runPipeline (some ex) riB true true true force_rechunk env
  | none => runPipeline none current true true true force_rechunk env

/-- The states passed to db.add_repository during a run, in order. -/
def persistedStates (ops : List DbOp) : List RepositoryInfo :=
  ops.filterMap fun op => match op with
    | DbOp.add_repository r => some r
    | _ => none

/-- True when an operation list touches only the persisted repository
state, never the chunk store. -/
def stateOnly (ops : List DbOp) : Bool :=
  ops.all fun op => match op with
    | DbOp.add_repository _ => true
    | _ => false

/-- Effect of one database operation on the chunk store of the repository,
viewed as the list of stored chunks. -/
def applyOp (store : List Chunk) : DbOp → List Chunk
  | DbOp.add_repository _ => store
  | DbOp.delete_file_chunks p => store.filter (fun c => c.file_path != p)
  | DbOp.delete_repository_chunks => []
  | DbOp.store_chunks cs => store ++ cs

/-- Effect of a run's database operations on the chunk store. -/
def applyOps (store : List Chunk) (ops : List DbOp) : List Chunk :=
  ops.foldl applyOp store

/- Concrete repositories, environments and runs used as test inputs for the
claims below. -/

def cHash1 : String := "c1"

def cHash2 : String := "c2"

def pA : String := "a.py"

def pB : String := "b.py"

def pX : String := "x.py"

def hs1 : String := "h1"

def hs2 : String := "h2"

def hs3 : String := "h3"

def hs4 : String := "h4"

def bodyStr : String := "body"

/-- A chunk used to populate chunk stores in tests. -/
def cW : Chunk := { file_path := pX, content := bodyStr }

/-- A collaborator environment whose fetch fails; the chunker, embedding
store and cleanup behave normally. The chunker produces, for each file, one
chunk referencing that file. -/
def envTriv : Env :=
  { fetch := FetchOutcome.fail
    fileExists := fun _ => true
    isTextFile := fun _ => true
    chunkFile := fun p => FileChunkResult.ok [{ file_path := p, content := bodyStr }]
    chunkAllResult := RepoChunkResult.ok []
    embedOk := true
    rmtreeOk := true
    nowTime := 9 }

/-- A fully indexed repository at commit c1 with one file x.py. -/
def exFull : RepositoryInfo :=
  { commit_hash := some cHash1
    download_successful := true
    chunking_successful := true
    embedding_successful := true
    file_hashes := [(pX, hs1)]
    num_files := 1
    num_chunks := 3
    last_indexed := some 5 }

/-- Persisted state where only the embed stage still needs to run. -/
def exEmbedOnly : RepositoryInfo := { exFull with embedding_successful := false }

/-- Persisted state where the download succeeded but chunking failed. -/
def exChunkFail : RepositoryInfo :=
  { exFull with chunking_successful := false, embedding_successful := false }

/-- A fully indexed repository at commit c1 with files a.py and b.py. -/
def exAB : RepositoryInfo := { exFull with file_hashes := [(pA, hs1), (pB, hs2)] }

/-- Downloaded snapshot in which x.py carries a new hash. -/
def dlC5 : DownloadedInfo := { file_hashes := [(pX, hs2)], num_files := 1 }

/-- Environment for a re-index at a changed commit where x.py was modified;
the whole-tree chunker would fail if it were consulted. -/
def envC5 : Env :=
  { envTriv with
    fetch := FetchOutcome.ok dlC5
    chunkAllResult := RepoChunkResult.otherError [] }

/-- The envC5 environment with a failing scratch-directory removal. -/
def envC8w : Env := { envC5 with rmtreeOk := false }

/-- Environment for a re-index at a changed commit where both files were
modified and chunking a.py raises UnicodeDecodeError. -/
def envC6 : Env :=
  { envTriv with
    fetch := FetchOutcome.ok { file_hashes := [(pA, hs3), (pB, hs4)], num_files := 2 }
    chunkFile := fun p =>
      if p == pA then FileChunkResult.decodeError
      else FileChunkResult.ok [{ file_path := p, content := bodyStr }] }

/-- The run in which the persisted state needed only the embed stage and the
commit hash is unchanged (claim C1's resume scenario). -/
def rC1 : RunResult := index_repository (some exEmbedOnly) cHash1 false false false false envTriv

/-- The state rC1 persists. -/
def riC1 : RepositoryInfo :=
  { commit_hash := some cHash1
    download_successful := false
    chunking_successful := false
    embedding_successful := true
    file_hashes := []
    num_files := 0
    num_chunks := 0
    last_indexed := some 9 }

/-- The run in which the persisted state needed only chunking (and then
embedding) and the commit hash is unchanged (claim C2's resume scenario). -/
def rC2 : RunResult := index_repository (some exChunkFail) cHash1 false false false false envTriv

/-- Re-index of exFull at a changed commit with x.py modified. -/
def rC5 : RunResult := index_repository (some exFull) cHash2 false false false false envC5

/-- Re-index of exAB at a changed commit where chunking a.py raises
UnicodeDecodeError. -/
def rC6 : RunResult := index_repository (some exAB) cHash2 false false false false envC6

/-- The last state rC6 persists. -/
def riC6 : RepositoryInfo :=
  { commit_hash := some cHash2
    download_successful := true
    chunking_successful := false
    embedding_successful := false
    file_hashes := [(pA, hs3), (pB, hs4)]
    num_files := 2
    num_chunks := 3
    last_indexed := none }

/-- First-time index attempt whose download fails (claim C7/C8 scenario). -/
def rC8 : RunResult := index_repository none cHash1 false false false false envTriv

/-- Old hash mapping used to exercise the change-set computation. -/
def oldW : List (String × String) := [(pA, hs1), (pB, hs2)]

/-- New hash mapping used to exercise the change-set computation: pA kept
unchanged, pB deleted, pX added. -/
def newW : List (String × String) := [(pA, hs1), (pX, hs3)]

/- Lemmas about the hash-mapping lookup and the change-set computation. -/

theorem lookupHash_eq_none {m : List (String × String)} {p : String} :
    lookupHash m p = none ↔ p ∉ m.map Prod.fst := by
  induction m with
  | nil => simp [lookupHash]
  | cons q rest ih =>
    by_cases h : q.1 = p
    · subst h
      simp [lookupHash]
    · have hb : (q.1 == p) = false := beq_eq_false_iff_ne.mpr h
      simp only [lookupHash, hb, Bool.false_eq_true, if_false, List.map_cons, List.mem_cons, ih]
      constructor
      · rintro hn (rfl | hm)
        · exact h rfl
        · exact hn hm
      · intro hn hm
        exact hn (Or.inr hm)

theorem mem_lookupHash_of_nodup {m : List (String × String)} {p hv : String}
    (hnd : (m.map Prod.fst).Nodup) (hm : (p, hv) ∈ m) : lookupHash m p = some hv := by
  induction m with
  | nil => simp at hm
  | cons q rest ih =>
    simp only [List.map_cons, List.nodup_cons] at hnd
    rcases List.mem_cons.mp hm with heq | hm'
    · rw [← heq]
      simp [lookupHash]
    · have hne : (q.1 == p) = false := by
        apply beq_eq_false_iff_ne.mpr
        intro hcontra
        exact hnd.1 (hcontra ▸ List.mem_map.mpr ⟨(p, hv), hm', rfl⟩)
      simp only [lookupHash, hne, Bool.false_eq_true, if_false]
      exact ih hnd.2 hm'

theorem mem_files_to_chunk {old_hashes new_hashes : List (String × String)} {p : String}
    (hnew : (new_hashes.map Prod.fst).Nodup) :
    p ∈ files_to_chunk old_hashes new_hashes ↔
      (p ∈ new_hashes.map Prod.fst ∧ lookupHash old_hashes p ≠ lookupHash new_hashes p) := by
  unfold files_to_chunk
  rw [List.mem_map]
  constructor
  · rintro ⟨pr, hpr, rfl⟩
    obtain ⟨hmem, hpred⟩ := List.mem_filter.mp hpr
    have hlk : lookupHash new_hashes pr.1 = some pr.2 := mem_lookupHash_of_nodup hnew hmem
    refine ⟨List.mem_map.mpr ⟨pr, hmem, rfl⟩, ?_⟩
    rw [hlk]
    cases hol : lookupHash old_hashes pr.1 with
    | none => simp
    | some hv =>
      rw [hol] at hpred
      simp only [bne_iff_ne, ne_eq, decide_eq_true_eq] at hpred
      intro hcontra
      exact hpred (Option.some.inj hcontra)
  · rintro ⟨hmemk, hne⟩
    obtain ⟨pr, hpr, rfl⟩ := List.mem_map.mp hmemk
    refine ⟨pr, List.mem_filter.mpr ⟨hpr, ?_⟩, rfl⟩
    have hlk : lookupHash new_hashes pr.1 = some pr.2 := mem_lookupHash_of_nodup hnew hpr
    rw [hlk] at hne
    cases hol : lookupHash old_hashes pr.1 with
    | none => rfl
    | some hv =>
      rw [hol] at hne
      simp only [bne_iff_ne, ne_eq, decide_eq_true_eq]
      intro hcontra
      exact hne (hcontra ▸ rfl)

theorem mem_files_to_delete {old_hashes new_hashes : List (String × String)} {p : String} :
    p ∈ files_to_delete old_hashes new_hashes ↔
      (p ∈ old_hashes.map Prod.fst ∧ lookupHash new_hashes p = none) := by
  unfold files_to_delete
  rw [List.mem_map]
  constructor
  · rintro ⟨pr, hpr, rfl⟩
    obtain ⟨hmem, hpred⟩ := List.mem_filter.mp hpr
    exact ⟨List.mem_map.mpr ⟨pr, hmem, rfl⟩, Option.isNone_iff_eq_none.mp hpred⟩
  · rintro ⟨hmemk, hnone⟩
    obtain ⟨pr, hpr, rfl⟩ := List.mem_map.mp hmemk
    exact ⟨pr, List.mem_filter.mpr ⟨hpr, by simp [hnone]⟩, rfl⟩

theorem files_to_chunk_subset {old_hashes new_hashes : List (String × String)} {p : String}
    (h : p ∈ files_to_chunk old_hashes new_hashes) : p ∈ new_hashes.map Prod.fst := by
  unfold files_to_chunk at h
  obtain ⟨pr, hpr, rfl⟩ := List.mem_map.mp h
  exact List.mem_map.mpr ⟨pr, (List.mem_filter.mp hpr).1, rfl⟩

theorem files_to_delete_not_in_new {old_hashes new_hashes : List (String × String)} {p : String}
    (h : p ∈ files_to_delete old_hashes new_hashes) : p ∉ new_hashes.map Prod.fst :=
  lookupHash_eq_none.mp (mem_files_to_delete.mp h).2

theorem files_to_chunk_nil (new_hashes : List (String × String)) :
    files_to_chunk [] new_hashes = new_hashes.map Prod.fst := by
  unfold files_to_chunk
  congr 1
  apply List.filter_eq_self.mpr
  intro pr _
  rfl

/- Lemmas about operation traces and their effect on the chunk store. -/

theorem applyOps_append (s : List Chunk) (l1 l2 : List DbOp) :
    applyOps s (l1 ++ l2) = applyOps (applyOps s l1) l2 := by
  simp [applyOps, List.foldl_append]

theorem applyOps_add (s : List Chunk) (r : RepositoryInfo) :
    applyOps s [DbOp.add_repository r] = s := rfl

theorem persistedStates_append (l1 l2 : List DbOp) :
    persistedStates (l1 ++ l2) = persistedStates l1 ++ persistedStates l2 := by
  simp [persistedStates, List.filterMap_append]

theorem persistedStates_deletes (ds : List String) :
    persistedStates (ds.map DbOp.delete_file_chunks) = [] := by
  induction ds with
  | nil => rfl
  | cons d rest ih => simp [persistedStates, List.filterMap_cons, ih]

theorem mem_applyOps_deletes {ds : List String} {s : List Chunk} {c : Chunk} :
    c ∈ applyOps s (ds.map DbOp.delete_file_chunks) ↔
      (c ∈ s ∧ ∀ d ∈ ds, c.file_path ≠ d) := by
  induction ds generalizing s with
  | nil => simp [applyOps]
  | cons d rest ih =>
    simp only [List.map_cons, applyOps, List.foldl_cons] at *
    rw [show applyOp s (DbOp.delete_file_chunks d) = s.filter (fun c => c.file_path != d) from rfl]
    rw [ih]
    simp only [List.mem_filter, bne_iff_ne, ne_eq, decide_eq_true_eq, List.mem_cons]
    constructor
    · rintro ⟨⟨hs, hd⟩, hrest⟩
      refine ⟨hs, ?_⟩
      rintro x (rfl | hx)
      · exact hd
      · exact hrest x hx
    · rintro ⟨hs, hall⟩
      exact ⟨⟨hs, hall d (Or.inl rfl)⟩, fun x hx => hall x (Or.inr hx)⟩

theorem stateOnly_applyOps {l : List DbOp} (h : stateOnly l = true) (s : List Chunk) :
    applyOps s l = s := by
  induction l generalizing s with
  | nil => rfl
  | cons op rest ih =>
    simp only [stateOnly, List.all_cons, Bool.and_eq_true] at h
    cases op with
    | add_repository r =>
      show applyOps (applyOp s (DbOp.add_repository r)) rest = s
      exact ih h.2 s
    | delete_file_chunks p => simp at h
    | delete_repository_chunks => simp at h
    | store_chunks cs => simp at h

/- Lemmas about the per-file chunk loop. -/

theorem persistedStates_chunkLoop (env : Env) (fs : List String) :
    persistedStates (chunkLoop env fs).1 = [] := by
  induction fs with
  | nil => rfl
  | cons p rest ih =>
    unfold chunkLoop
    cases he : env.fileExists p with
    | false => simpa [he] using ih
    | true =>
      cases ht : env.isTextFile p with
      | false => simpa [he, ht, persistedStates, List.filterMap_cons] using ih
      | true =>
        cases hc : env.chunkFile p with
        | ok cs => simpa [he, ht, hc, persistedStates, List.filterMap_cons] using ih
        | decodeError => simp [he, ht, hc, persistedStates, List.filterMap_cons]
        | otherError => simp [he, ht, hc, persistedStates, List.filterMap_cons]

theorem chunkLoop_store_subset (env : Env) (fs : List String) :
    ∀ s : List Chunk, ∀ c ∈ applyOps s (chunkLoop env fs).1, c ∈ s := by
  induction fs with
  | nil =>
    intro s c hc
    simpa [applyOps, chunkLoop] using hc
  | cons p rest ih =>
    intro s c hc
    unfold chunkLoop at hc
    cases he : env.fileExists p with
    | false =>
      rw [he] at hc
      simp only [Bool.false_eq_true, if_false] at hc
      exact ih s c hc
    | true =>
      rw [he] at hc
      simp only [if_true] at hc
      have hfilter : ∀ d, c ∈ s.filter (fun x => x.file_path != d) → c ∈ s :=
        fun d hx => (List.mem_filter.mp hx).1
      cases ht : env.isTextFile p with
      | false =>
        rw [ht] at hc
        simp only [Bool.false_eq_true, if_false] at hc
        rw [show applyOps s (DbOp.delete_file_chunks p :: (chunkLoop env rest).1) =
              applyOps (s.filter (fun x => x.file_path != p)) (chunkLoop env rest).1 from rfl] at hc
        exact hfilter p (ih _ c hc)
      | true =>
        rw [ht] at hc
        simp only [if_true] at hc
        cases hcf : env.chunkFile p with
        | ok cs =>
          rw [hcf] at hc
          rw [show applyOps s (DbOp.delete_file_chunks p :: (chunkLoop env rest).1) =
                applyOps (s.filter (fun x => x.file_path != p)) (chunkLoop env rest).1 from rfl] at hc
          exact hfilter p (ih _ c hc)
        | decodeError =>
          rw [hcf] at hc
          exact hfilter p hc
        | otherError =>
          rw [hcf] at hc
          exact hfilter p hc

theorem chunkLoop_chunks_mem (env : Env)
    (hok : ∀ p, ∀ c ∈ fileChunksOf (env.chunkFile p), c.file_path = p)
    (fs : List String) : ∀ c ∈ (chunkLoop env fs).2.1, c.file_path ∈ fs := by
  induction fs with
  | nil => intro c hc; simp [chunkLoop] at hc
  | cons p rest ih =>
    intro c hc
    unfold chunkLoop at hc
    cases he : env.fileExists p with
    | false =>
      rw [he] at hc
      simp only [Bool.false_eq_true, if_false] at hc
      exact List.mem_cons_of_mem p (ih c hc)
    | true =>
      rw [he] at hc
      simp only [if_true] at hc
      cases ht : env.isTextFile p with
      | false =>
        rw [ht] at hc
        simp only [Bool.false_eq_true, if_false] at hc
        exact List.mem_cons_of_mem p (ih c hc)
      | true =>
        rw [ht] at hc
        simp only [if_true] at hc
        cases hcf : env.chunkFile p with
        | ok cs =>
          rw [hcf] at hc
          rcases List.mem_append.mp hc with hl | hr
          · have := hok p c (by rw [hcf]; exact hl)
            rw [this]
            exact List.mem_cons_self p rest
          · exact List.mem_cons_of_mem p (ih c hr)
        | decodeError =>
          rw [hcf] at hc
          simp at hc
        | otherError =>
          rw [hcf] at hc
          simp at hc

/- Structural lemmas about the chunk stage and the embed stage. -/

theorem stage2_ri_commit (existing : Option RepositoryInfo) (ri : RepositoryInfo)
    (dirP nc fr : Bool) (ftc ftd : List String) (env : Env) :
    (stage2 existing ri dirP nc fr ftc ftd env).ri.commit_hash = ri.commit_hash := by
  unfold stage2
  split
  · split
    · rfl
    · rfl
  · rfl

theorem stage2_skip (existing : Option RepositoryInfo) (ri : RepositoryInfo)
    (dirP nc fr : Bool) (ftc ftd : List String) (env : Env)
    (h : (nc && dirP) = false) :
    stage2 existing ri dirP nc fr ftc ftd env =
      { ops := [], chunks := [], ri := ri, raised := false, executed := false,
        diffScoped := false } := by
  unfold stage2
  rw [h]
  rfl

theorem stage2_persisted_commit (existing : Option RepositoryInfo) (ri : RepositoryInfo)
    (dirP nc fr : Bool) (ftc ftd : List String) (env : Env) :
    ∀ st ∈ persistedStates (stage2 existing ri dirP nc fr ftc ftd env).ops,
      st.commit_hash = ri.commit_hash := by
  unfold stage2
  split
  · split
    · intro st hst
      simp only [persistedStates_append, persistedStates_deletes, persistedStates_chunkLoop,
        List.nil_append] at hst
      simp only [persistedStates, List.filterMap_cons, List.filterMap_nil] at hst
      rcases List.mem_singleton.mp hst with rfl
      rfl
    · intro st hst
      rcases existing.isSome with _ | _ <;>
      · simp only [persistedStates, List.filterMap_append, List.filterMap_cons,
          List.filterMap_nil] at hst
        split at hst <;>
        · simp at hst
          rw [hst]
  · intro st hst
    simp [persistedStates] at hst

@[simp] theorem stage3_ops_eq (s2 : Stage2Out) (nc ne : Bool) (ops0 : List DbOp)
    (dl : Bool) (env : Env) :
    (stage3 s2 nc ne ops0 dl env).ops = ops0 ++ s2.ops ++ stage3Ops s2 nc ne env := rfl

@[simp] theorem stage3_raised_eq (s2 : Stage2Out) (nc ne : Bool) (ops0 : List DbOp)
    (dl : Bool) (env : Env) :
    (stage3 s2 nc ne ops0 dl env).raised = stage3Raised s2 nc ne env := rfl

@[simp] theorem stage3_returned_eq (s2 : Stage2Out) (nc ne : Bool) (ops0 : List DbOp)
    (dl : Bool) (env : Env) :
    (stage3 s2 nc ne ops0 dl env).returned =
      (if stage3Raised s2 nc ne env then none else some (stage3Ri s2 nc ne env)) := rfl

@[simp] theorem stage3_downloadExecuted_eq (s2 : Stage2Out) (nc ne : Bool) (ops0 : List DbOp)
    (dl : Bool) (env : Env) :
    (stage3 s2 nc ne ops0 dl env).downloadExecuted = dl := rfl

@[simp] theorem stage3_chunkStageExecuted_eq (s2 : Stage2Out) (nc ne : Bool) (ops0 : List DbOp)
    (dl : Bool) (env : Env) :
    (stage3 s2 nc ne ops0 dl env).chunkStageExecuted = s2.executed := rfl

@[simp] theorem stage3_diffScoped_eq (s2 : Stage2Out) (nc ne : Bool) (ops0 : List DbOp)
    (dl : Bool) (env : Env) :
    (stage3 s2 nc ne ops0 dl env).diffScoped = s2.diffScoped := rfl

@[simp] theorem stage3_embedStageExecuted_eq (s2 : Stage2Out) (nc ne : Bool) (ops0 : List DbOp)
    (dl : Bool) (env : Env) :
    (stage3 s2 nc ne ops0 dl env).embedStageExecuted = stage3Embed s2 nc ne := rfl

@[simp] theorem stage3_chunksProduced_eq (s2 : Stage2Out) (nc ne : Bool) (ops0 : List DbOp)
    (dl : Bool) (env : Env) :
    (stage3 s2 nc ne ops0 dl env).chunksProduced = s2.chunks := rfl

@[simp] theorem stage3_tempDirCreated_eq (s2 : Stage2Out) (nc ne : Bool) (ops0 : List DbOp)
    (dl : Bool) (env : Env) :
    (stage3 s2 nc ne ops0 dl env).tempDirCreated = dl := rfl

@[simp] theorem stage3_cleanupAttempted_eq (s2 : Stage2Out) (nc ne : Bool) (ops0 : List DbOp)
    (dl : Bool) (env : Env) :
    (stage3 s2 nc ne ops0 dl env).cleanupAttempted = (!stage3Raised s2 nc ne env && dl) := rfl

@[simp] theorem stage3_tempDirRemoved_eq (s2 : Stage2Out) (nc ne : Bool) (ops0 : List DbOp)
    (dl : Bool) (env : Env) :
    (stage3 s2 nc ne ops0 dl env).tempDirRemoved =
      (!stage3Raised s2 nc ne env && dl && env.rmtreeOk) := rfl

theorem stage3Ri_commit (s2 : Stage2Out) (nc ne : Bool) (env : Env) :
    (stage3Ri s2 nc ne env).commit_hash = s2.ri.commit_hash := by
  unfold stage3Ri
  split
  · split
    · split
      · rfl
      · rfl
    · rfl
  · rfl

theorem stage3_cleanup (s2 : Stage2Out) (nc ne : Bool) (ops0 : List DbOp)
    (dl : Bool) (env : Env) :
    ((stage3 s2 nc ne ops0 dl env).raised = false →
        (stage3 s2 nc ne ops0 dl env).cleanupAttempted =
          (stage3 s2 nc ne ops0 dl env).tempDirCreated
        ∧ ((stage3 s2 nc ne ops0 dl env).returned).isSome = true)
    ∧ ((stage3 s2 nc ne ops0 dl env).raised = true →
        (stage3 s2 nc ne ops0 dl env).tempDirRemoved = false) := by
  constructor
  · intro h
    simp only [stage3_raised_eq] at h
    simp [h]
  · intro h
    simp only [stage3_raised_eq] at h
    simp [h]

theorem stage3_persisted (s2 : Stage2Out) (nc ne : Bool) (ops0 : List DbOp)
    (dl : Bool) (env : Env) :
    ∀ st ∈ persistedStates (stage3 s2 nc ne ops0 dl env).ops,
      st ∈ persistedStates ops0 ∨ st ∈ persistedStates s2.ops
        ∨ st.commit_hash = s2.ri.commit_hash := by
  intro st hst
  simp only [stage3_ops_eq, persistedStates_append, List.mem_append] at hst
  rcases hst with (h0 | h2) | h3
  · exact Or.inl h0
  · exact Or.inr (Or.inl h2)
  · right; right
    unfold stage3Ops at h3
    split at h3
    · split at h3 <;>
      · simp only [persistedStates, List.filterMap_cons, List.filterMap_nil] at h3
        rcases List.mem_singleton.mp h3 with rfl
        exact stage3Ri_commit s2 nc ne env
    · simp [persistedStates] at h3

theorem stage3_noDownload (s2 : Stage2Out) (nc ne : Bool) (env : Env)
    (hops : s2.ops = []) (hchunks : s2.chunks = []) :
    (stage3 s2 nc ne [] false env).chunksProduced = []
    ∧ (∀ store, applyOps store (stage3 s2 nc ne [] false env).ops = store)
    ∧ (∀ cs, DbOp.store_chunks cs ∉ (stage3 s2 nc ne [] false env).ops) := by
  refine ⟨by simp [hchunks], ?_, ?_⟩
  · intro store
    simp only [stage3_ops_eq, hops, List.nil_append]
    unfold stage3Ops
    rw [hchunks]
    split
    · simp [applyOps, applyOp]
    · rfl
  · intro cs
    simp only [stage3_ops_eq, hops, List.nil_append]
    unfold stage3Ops
    rw [hchunks]
    split
    · simp
    · simp

theorem partial_ops_no_orphan (env : Env) (ftc ftd : List String) (ri2 : RepositoryInfo)
    (store : List Chunk) (ch : Chunk)
    (hch : ch ∈ applyOps store
      (ftd.map DbOp.delete_file_chunks ++ (chunkLoop env ftc).1 ++ [DbOp.add_repository ri2])) :
    ch ∈ store ∧ ch.file_path ∉ ftd := by
  rw [applyOps_append, applyOps_add, applyOps_append] at hch
  have h1 := chunkLoop_store_subset env ftc _ ch hch
  have h2 := mem_applyOps_deletes.mp h1
  exact ⟨h2.1, fun hmem => h2.2 ch.file_path hmem rfl⟩

theorem applyOps_stage3Ops (s2 : Stage2Out) (nc ne : Bool) (env : Env) (base : List Chunk)
    (ch : Chunk) (hch : ch ∈ applyOps base (stage3Ops s2 nc ne env)) :
    ch ∈ base ∨ ch ∈ s2.chunks := by
  unfold stage3Ops at hch
  split at hch
  · split at hch
    · rw [show applyOps base
          [DbOp.store_chunks s2.chunks, DbOp.add_repository (stage3Ri s2 nc ne env)] =
          base ++ s2.chunks from rfl] at hch
      exact List.mem_append.mp hch
    · rw [applyOps_add] at hch
      exact Or.inl hch
  · exact Or.inl hch

/- Structural lemmas about the full pipeline. -/

theorem runPipeline_fail (existing : Option RepositoryInfo) (ri0 : RepositoryInfo)
    (nc ne fr : Bool) (env : Env) (henv : env.fetch = FetchOutcome.fail) :
    runPipeline existing ri0 true nc ne fr env =
      { ops := [DbOp.add_repository { ri0 with download_successful := false }]
        returned := none
        raised := true
        downloadExecuted := true
        chunkStageExecuted := false
        diffScoped := false
        embedStageExecuted := false
        chunksProduced := []
        tempDirCreated := true
        cleanupAttempted := false
        tempDirRemoved := false } := by
  unfold runPipeline
  rw [henv]
  rfl

theorem runPipeline_okFetch (existing : Option RepositoryInfo) (ri0 : RepositoryInfo)
    (nc ne fr : Bool) (env : Env) (dl : DownloadedInfo)
    (henv : env.fetch = FetchOutcome.ok dl) :
    runPipeline existing ri0 true nc ne fr env =
      downloadOkRun existing ri0 nc ne fr dl env := by
  unfold runPipeline
  rw [henv]
  rfl

theorem runPipeline_noDownload (existing : Option RepositoryInfo) (ri0 : RepositoryInfo)
    (nc ne fr : Bool) (env : Env) :
    runPipeline existing ri0 false nc ne fr env =
      stage3 (stage2 existing ri0 false nc fr [] [] env) nc ne [] false env := rfl

theorem runPipeline_cleanup (existing : Option RepositoryInfo) (ri0 : RepositoryInfo)
    (nd nc ne fr : Bool) (env : Env) :
    ((runPipeline existing ri0 nd nc ne fr env).raised = false →
        (runPipeline existing ri0 nd nc ne fr env).cleanupAttempted =
          (runPipeline existing ri0 nd nc ne fr env).tempDirCreated
        ∧ ((runPipeline existing ri0 nd nc ne fr env).returned).isSome = true)
    ∧ ((runPipeline existing ri0 nd nc ne fr env).raised = true →
        (runPipeline existing ri0 nd nc ne fr env).tempDirRemoved = false) := by
  cases nd with
  | false =>
    rw [runPipeline_noDownload]
    exact stage3_cleanup _ _ _ _ _ _
  | true =>
    cases henv : env.fetch with
    | fail =>
      rw [runPipeline_fail existing ri0 nc ne fr env henv]
      refine ⟨fun h => ?_, fun _ => rfl⟩
      cases h
    | ok dl =>
      rw [runPipeline_okFetch existing ri0 nc ne fr env dl henv]
      unfold downloadOkRun afterDownload
      exact stage3_cleanup _ _ _ _ _ _

theorem runPipeline_persisted (existing : Option RepositoryInfo) (ri0 : RepositoryInfo)
    (nd nc ne fr : Bool) (env : Env) :
    ∀ st ∈ persistedStates (runPipeline existing ri0 nd nc ne fr env).ops,
      st.commit_hash = ri0.commit_hash := by
  cases nd with
  | false =>
    rw [runPipeline_noDownload]
    intro st hst
    rcases stage3_persisted _ _ _ _ _ _ st hst with h0 | h2 | h3
    · simp [persistedStates] at h0
    · have := stage2_persisted_commit existing ri0 false nc fr [] [] env st h2
      exact this
    · rw [h3, stage2_ri_commit]
  | true =>
    cases henv : env.fetch with
    | fail =>
      rw [runPipeline_fail existing ri0 nc ne fr env henv]
      intro st hst
      simp only [persistedStates, List.filterMap_cons, List.filterMap_nil] at hst
      rcases List.mem_singleton.mp hst with rfl
      rfl
    | ok dl =>
      rw [runPipeline_okFetch existing ri0 nc ne fr env dl henv]
      unfold downloadOkRun afterDownload
      intro st hst
      rcases stage3_persisted _ _ _ _ _ _ st hst with h0 | h2 | h3
      · simp only [persistedStates, List.filterMap_cons, List.filterMap_nil] at h0
        rcases List.mem_singleton.mp h0 with rfl
        rfl
      · have := stage2_persisted_commit _ _ _ _ _ _ _ _ st h2
        exact this
      · rw [h3, stage2_ri_commit]

theorem runPipeline_store (existing : Option RepositoryInfo) (ri0 : RepositoryInfo)
    (nd nc ne fr : Bool) (env : Env) :
    ((runPipeline existing ri0 nd nc ne fr env).downloadExecuted = false →
        (runPipeline existing ri0 nd nc ne fr env).chunksProduced = []
        ∧ ∀ store, applyOps store (runPipeline existing ri0 nd nc ne fr env).ops = store)
    ∧ (∀ cs, DbOp.store_chunks cs ∈ (runPipeline existing ri0 nd nc ne fr env).ops →
        (runPipeline existing ri0 nd nc ne fr env).downloadExecuted = true
        ∧ env.fetch ≠ FetchOutcome.fail) := by
  cases nd with
  | false =>
    rw [runPipeline_noDownload]
    have hskip := stage2_skip existing ri0 false nc fr [] [] env (Bool.and_false nc)
    have h := stage3_noDownload (stage2 existing ri0 false nc fr [] [] env) nc ne env
      (by rw [hskip]) (by rw [hskip])
    exact ⟨fun _ => ⟨h.1, h.2.1⟩, fun cs hmem => absurd hmem (h.2.2 cs)⟩
  | true =>
    cases henv : env.fetch with
    | fail =>
      rw [runPipeline_fail existing ri0 nc ne fr env henv]
      constructor
      · intro h
        cases h
      · intro cs hmem
        simp at hmem
    | ok dl =>
      rw [runPipeline_okFetch existing ri0 nc ne fr env dl henv]
      constructor
      · intro h
        have hd : (downloadOkRun existing ri0 nc ne fr dl env).downloadExecuted = true := rfl
        rw [hd] at h
        cases h
      · intro cs _
        exact ⟨rfl, by simp [henv]⟩

theorem runPipeline_fail_props (existing : Option RepositoryInfo) (ri0 : RepositoryInfo)
    (nd nc ne fr : Bool) (env : Env)
    (hfail : env.fetch = FetchOutcome.fail)
    (hexec : (runPipeline existing ri0 nd nc ne fr env).downloadExecuted = true) :
    (runPipeline existing ri0 nd nc ne fr env).raised = true
    ∧ (runPipeline existing ri0 nd nc ne fr env).chunkStageExecuted = false
    ∧ (runPipeline existing ri0 nd nc ne fr env).embedStageExecuted = false
    ∧ ∃ st, persistedStates (runPipeline existing ri0 nd nc ne fr env).ops = [st]
        ∧ st.download_successful = false := by
  cases nd with
  | false =>
    rw [runPipeline_noDownload] at hexec
    simp only [stage3_downloadExecuted_eq] at hexec
    cases hexec
  | true =>
    rw [runPipeline_fail existing ri0 nc ne fr env hfail]
    exact ⟨rfl, rfl, rfl, { ri0 with download_successful := false }, rfl, rfl⟩

/- Lemmas about index_repository as a whole. -/

theorem index_repository_cases (existing : Option RepositoryInfo) (c : String)
    (f1 f2 f3 f4 : Bool) (env : Env) :
    (∃ ex, existing = some ex
        ∧ index_repository existing c f1 f2 f3 f4 env = skipRecord ex)
    ∨ (∃ ri0 nd nc ne fr, ri0.commit_hash = some c
        ∧ index_repository existing c f1 f2 f3 f4 env =
            runPipeline existing ri0 nd nc ne fr env) := by
  unfold index_repository
  cases existing with
  | none => exact Or.inr ⟨_, _, _, _, _, rfl, rfl⟩
  | some ex =>
    dsimp only
    by_cases hA : (commitTruthy ex.commit_hash && commitEq ex.commit_hash c && !f1) = true
    · rw [if_pos hA]
      by_cases hS : (!(f2 || f1 || !ex.download_successful) &&
          !(if (f2 || f1 || !ex.download_successful) = true then true
            else f3 || f1 || !ex.chunking_successful) &&
          !(if (f2 || f1 || !ex.download_successful ||
                (if (f2 || f1 || !ex.download_successful) = true then true
                 else f3 || f1 || !ex.chunking_successful)) = true then true
            else f4 || f1 || !ex.embedding_successful)) = true
      · rw [if_pos hS]
        exact Or.inl ⟨ex, rfl, rfl⟩
      · rw [if_neg hS]
        exact Or.inr ⟨_, _, _, _, _, rfl, rfl⟩
    · rw [if_neg hA]
      exact Or.inr ⟨_, _, _, _, _, rfl, rfl⟩

theorem index_persisted_commit (existing : Option RepositoryInfo) (c : String)
    (f1 f2 f3 f4 : Bool) (env : Env) :
    ∀ st ∈ persistedStates (index_repository existing c f1 f2 f3 f4 env).ops,
      st.commit_hash = some c := by
  rcases index_repository_cases existing c f1 f2 f3 f4 env with
    ⟨ex, _, heq⟩ | ⟨ri0, nd, nc, ne, fr, hcommit, heq⟩
  · rw [heq]
    intro st hst
    simp [skipRecord, persistedStates] at hst
  · rw [heq]
    intro st hst
    rw [← hcommit]
    exact runPipeline_persisted _ _ _ _ _ _ _ st hst

/- The claims. -/

/-- C1: the claim says every state persisted by index_repository satisfies
the stage-dependency invariant chain, and in particular a resume with the
commit unchanged and only the embed stage needed persists a state with all
three flags true. The code instead persists a state built from the fresh
get_repository_info record, which lost the prior download and chunk flags
(and the file hashes and counters): the single persisted state has
embedding_successful true but download_successful and chunking_successful
false. -/
theorem C1_resume_embed_only_breaks_invariant :
    exEmbedOnly.download_successful = true
    ∧ exEmbedOnly.chunking_successful = true
    ∧ exEmbedOnly.embedding_successful = false
    ∧ exEmbedOnly.commit_hash = some cHash1
    ∧ persistedStates rC1.ops = [riC1]
    ∧ riC1.embedding_successful = true
    ∧ riC1.chunking_successful = false
    ∧ riC1.download_successful = false
    ∧ riC1.file_hashes = []
    ∧ rC1.raised = false := by decide

/-- C2: the claim says that with the commit unchanged, download_ok true and
chunk_ok false, a no-force run skips download and executes the chunk stage
on the full file set. In the code, need_chunking is set but the chunk stage
body is guarded by repo_dir, which is only set when a download ran in the
same run, so nothing is chunked, nothing is embedded, nothing is persisted,
and a fresh all-false state is returned. -/
theorem C2_chunk_resume_skips_chunking :
    exChunkFail.download_successful = true
    ∧ exChunkFail.chunking_successful = false
    ∧ exChunkFail.commit_hash = some cHash1
    ∧ rC2.downloadExecuted = false
    ∧ rC2.chunkStageExecuted = false
    ∧ rC2.embedStageExecuted = false
    ∧ rC2.ops = []
    ∧ rC2.raised = false
    ∧ rC2.returned = some (get_repository_info cHash1) := by decide

/-- C3: the change-set computation is a pure function of the two hash
mappings: changed = paths in both with differing hash plus paths only in
new_hashes, deleted = paths only in old_hashes, the two are disjoint, and
an empty old mapping makes changed all of new_hashes's keys and deleted
empty. -/
theorem C3_change_set_correct (old_hashes new_hashes : List (String × String))
    (hnew : (new_hashes.map Prod.fst).Nodup) :
    (∀ p, p ∈ files_to_chunk old_hashes new_hashes ↔
       ((p ∈ old_hashes.map Prod.fst ∧ p ∈ new_hashes.map Prod.fst ∧
           lookupHash old_hashes p ≠ lookupHash new_hashes p)
         ∨ (p ∈ new_hashes.map Prod.fst ∧ p ∉ old_hashes.map Prod.fst)))
    ∧ (∀ p, p ∈ files_to_delete old_hashes new_hashes ↔
       (p ∈ old_hashes.map Prod.fst ∧ p ∉ new_hashes.map Prod.fst))
    ∧ (∀ p, ¬(p ∈ files_to_chunk old_hashes new_hashes
        ∧ p ∈ files_to_delete old_hashes new_hashes))
    ∧ (old_hashes = [] →
        files_to_chunk old_hashes new_hashes = new_hashes.map Prod.fst
        ∧ files_to_delete old_hashes new_hashes = []) := by
  refine ⟨?_, ?_, ?_, ?_⟩
  · intro p
    rw [mem_files_to_chunk hnew]
    constructor
    · rintro ⟨hn, hne⟩
      by_cases ho : p ∈ old_hashes.map Prod.fst
      · exact Or.inl ⟨ho, hn, hne⟩
      · exact Or.inr ⟨hn, ho⟩
    · rintro (⟨_, hn, hne⟩ | ⟨hn, ho⟩)
      · exact ⟨hn, hne⟩
      · refine ⟨hn, ?_⟩
        rw [lookupHash_eq_none.mpr ho]
        obtain ⟨pr, hpr, rfl⟩ := List.mem_map.mp hn
        rw [mem_lookupHash_of_nodup hnew hpr]
        simp
  · intro p
    rw [mem_files_to_delete]
    exact ⟨fun ⟨ho, hnone⟩ => ⟨ho, lookupHash_eq_none.mp hnone⟩,
      fun ⟨ho, hnn⟩ => ⟨ho, lookupHash_eq_none.mpr hnn⟩⟩
  · rintro p ⟨hc, hd⟩
    exact files_to_delete_not_in_new hd (files_to_chunk_subset hc)
  · intro h
    subst h
    exact ⟨files_to_chunk_nil new_hashes, rfl⟩

/-- C3 witness: the characterization evaluated on the concrete mappings
oldW and newW (pA unchanged, pB deleted, pX added). -/
theorem C3_change_set_correct_witness :
    pX ∈ files_to_chunk oldW newW
    ∧ pB ∈ files_to_delete oldW newW
    ∧ pA ∉ files_to_chunk oldW newW := by
  have h := C3_change_set_correct oldW newW (by decide)
  refine ⟨?_, ?_, ?_⟩
  · exact (h.1 pX).mpr (Or.inr ⟨by decide, by decide⟩)
  · exact (h.2.1 pB).mpr ⟨by decide, by decide⟩
  · intro hmem
    rcases (h.1 pA).mp hmem with ⟨_, _, hne⟩ | ⟨_, ho⟩
    · exact hne (by decide)
    · exact ho (by decide)

/-- C4: a second index_repository call on a fully indexed repository with
the same (truthy) commit hash and no force flags performs no stage work,
writes nothing, and returns the existing persisted state unchanged. -/
theorem C4_second_index_noop (ex : RepositoryInfo) (c : String) (env : Env)
    (hc : ex.commit_hash = some c) (hne : c ≠ "")
    (hd : ex.download_successful = true) (hch : ex.chunking_successful = true)
    (he : ex.embedding_successful = true) :
    index_repository (some ex) c false false false false env = skipRecord ex := by
  have hb : (c == "") = false := beq_eq_false_iff_ne.mpr hne
  unfold index_repository
  dsimp only
  rw [hc]
  simp [commitTruthy, commitEq, hb, hd, hch, he]

/-- C4 witness: the no-op second call evaluated on the fully indexed
repository exFull at its own commit. -/
theorem C4_second_index_noop_witness :
    index_repository (some exFull) cHash1 false false false false envTriv =
      skipRecord exFull :=
  C4_second_index_noop exFull cHash1 envTriv rfl (by decide) rfl rfl rfl

/-- C5 counterexample: re-indexing the fully indexed exFull after its
commit hash changed (x.py modified, no force flags) takes the diff-scoped
chunk branch, not the full one: no delete_repository_chunks is issued and
the whole-tree chunker (which would raise in envC5) is never consulted, so
the claimed required-full chunk does not happen. -/
theorem C5_commit_change_not_full_chunk :
    exFull.download_successful = true
    ∧ exFull.chunking_successful = true
    ∧ exFull.embedding_successful = true
    ∧ exFull.commit_hash = some cHash1
    ∧ rC5.chunkStageExecuted = true
    ∧ rC5.diffScoped = true
    ∧ DbOp.delete_repository_chunks ∉ rC5.ops
    ∧ rC5.raised = false := by decide

/-- C6: the claim says a decode failure on one file only omits that file,
does not abort the remaining in-scope files and leaves chunking_successful
true. In the code the try block wraps the whole per-file loop, so the
UnicodeDecodeError on a.py aborts the loop before b.py is processed and
chunking_successful is persisted as false; only the non-propagation part
holds (raised = false). -/
theorem C6_decode_error_fails_stage :
    rC6.raised = false
    ∧ rC6.chunkStageExecuted = true
    ∧ rC6.diffScoped = true
    ∧ (persistedStates rC6.ops).getLast? = some riC6
    ∧ riC6.chunking_successful = false
    ∧ rC6.chunksProduced = []
    ∧ DbOp.delete_file_chunks pB ∉ rC6.ops
    ∧ rC6.embedStageExecuted = false := by decide

/-- C7: when the download stage executes and the fetch fails, the run
persists exactly one state, with download_successful false, and propagates
the failure; neither the chunk stage nor the embed stage executes. -/
theorem C7_download_failure_fatal (existing : Option RepositoryInfo) (c : String)
    (f1 f2 f3 f4 : Bool) (env : Env)
    (hfail : env.fetch = FetchOutcome.fail)
    (hexec : (index_repository existing c f1 f2 f3 f4 env).downloadExecuted = true) :
    (index_repository existing c f1 f2 f3 f4 env).raised = true
    ∧ (index_repository existing c f1 f2 f3 f4 env).chunkStageExecuted = false
    ∧ (index_repository existing c f1 f2 f3 f4 env).embedStageExecuted = false
    ∧ ∃ st, persistedStates (index_repository existing c f1 f2 f3 f4 env).ops = [st]
        ∧ st.download_successful = false := by
  rcases index_repository_cases existing c f1 f2 f3 f4 env with
    ⟨ex, _, heq⟩ | ⟨ri0, nd, nc, ne, fr, _, heq⟩
  · rw [heq] at hexec
    simp [skipRecord] at hexec
  · rw [heq] at hexec ⊢
    exact runPipeline_fail_props _ _ _ _ _ _ _ hfail hexec

/-- C7 witness: the first-time index attempt under envTriv, whose fetch
fails. -/
theorem C7_download_failure_fatal_witness :
    (index_repository none cHash1 false false false false envTriv).raised = true
    ∧ (index_repository none cHash1 false false false false envTriv).chunkStageExecuted = false
    ∧ (index_repository none cHash1 false false false false envTriv).embedStageExecuted = false
    ∧ ∃ st, persistedStates (index_repository none cHash1 false false false false envTriv).ops = [st]
        ∧ st.download_successful = false :=
  C7_download_failure_fatal none cHash1 false false false false envTriv rfl (by decide)

/-- C8 counterexample: the claim says the scratch directory is removed on
every exit path including exceptions. On the download-failure run the
scratch directory was created, the run exits by raising, and cleanup is
never attempted (even though rmtree itself would succeed). -/
theorem C8_no_cleanup_on_exception :
    rC8.tempDirCreated = true
    ∧ rC8.raised = true
    ∧ rC8.cleanupAttempted = false
    ∧ rC8.tempDirRemoved = false
    ∧ envTriv.rmtreeOk = true := by decide

/-- C8 amended: the scratch directory is cleaned up only on the
normal-return exit path: whenever the run returns without raising, cleanup
is attempted exactly when a scratch directory was created and the result is
still returned (an rmtree failure is logged, not propagated); whenever the
run exits by raising, the scratch directory is never removed. -/
theorem C8_amended_cleanup (existing : Option RepositoryInfo) (c : String)
    (f1 f2 f3 f4 : Bool) (env : Env) :
    ((index_repository existing c f1 f2 f3 f4 env).raised = false →
        (index_repository existing c f1 f2 f3 f4 env).cleanupAttempted =
          (index_repository existing c f1 f2 f3 f4 env).tempDirCreated
        ∧ ((index_repository existing c f1 f2 f3 f4 env).returned).isSome = true)
    ∧ ((index_repository existing c f1 f2 f3 f4 env).raised = true →
        (index_repository existing c f1 f2 f3 f4 env).tempDirRemoved = false) := by
  rcases index_repository_cases existing c f1 f2 f3 f4 env with
    ⟨ex, _, heq⟩ | ⟨ri0, nd, nc, ne, fr, _, heq⟩
  · rw [heq]
    exact ⟨fun _ => ⟨rfl, rfl⟩, fun h => by cases h⟩
  · rw [heq]
    exact runPipeline_cleanup _ _ _ _ _ _ _

/-- C8 amended witness: the normal-return re-index run under envC8w, whose
rmtree fails; cleanup is attempted, the failure is not propagated, and the
result is returned. -/
theorem C8_amended_cleanup_witness :
    (index_repository (some exFull) cHash2 false false false false envC8w).cleanupAttempted =
      (index_repository (some exFull) cHash2 false false false false envC8w).tempDirCreated
    ∧ ((index_repository (some exFull) cHash2 false false false false envC8w).returned).isSome = true :=
  (C8_amended_cleanup (some exFull) cHash2 false false false false envC8w).1 (by decide)

/-- C9: store_chunks is invoked only in runs whose download stage executed
and whose fetch succeeded; a run that skips the download produces no
chunks and leaves the chunk store untouched (its operations can only be
state writes). -/
theorem C9_store_requires_download (existing : Option RepositoryInfo) (c : String)
    (f1 f2 f3 f4 : Bool) (env : Env) :
    ((index_repository existing c f1 f2 f3 f4 env).downloadExecuted = false →
        (index_repository existing c f1 f2 f3 f4 env).chunksProduced = []
        ∧ ∀ store, applyOps store (index_repository existing c f1 f2 f3 f4 env).ops = store)
    ∧ (∀ cs, DbOp.store_chunks cs ∈ (index_repository existing c f1 f2 f3 f4 env).ops →
        (index_repository existing c f1 f2 f3 f4 env).downloadExecuted = true
        ∧ env.fetch ≠ FetchOutcome.fail) := by
  rcases index_repository_cases existing c f1 f2 f3 f4 env with
    ⟨ex, _, heq⟩ | ⟨ri0, nd, nc, ne, fr, _, heq⟩
  · rw [heq]
    exact ⟨fun _ => ⟨rfl, fun store => rfl⟩, fun cs hmem => absurd hmem (by simp [skipRecord])⟩
  · rw [heq]
    exact runPipeline_store _ _ _ _ _ _ _

/-- C9 witness: the embed-only resume run skips the download and leaves a
one-chunk store unchanged. -/
theorem C9_store_requires_download_witness :
    applyOps [cW] (index_repository (some exEmbedOnly) cHash1 false false false false envTriv).ops = [cW] :=
  ((C9_store_requires_download (some exEmbedOnly) cHash1 false false false false envTriv).1
    (by decide)).2 [cW]

/-- C10: every state persisted during a run carries the newly observed
commit hash of that run, never the previously persisted one. -/
theorem C10_persisted_commit_is_current (existing : Option RepositoryInfo) (c : String)
    (f1 f2 f3 f4 : Bool) (env : Env) :
    (persistedStates (index_repository existing c f1 f2 f3 f4 env).ops).all
      (fun st => st.commit_hash == some c) = true := by
  rw [List.all_eq_true]
  intro st hst
  exact beq_iff_eq.mpr (index_persisted_commit existing c f1 f2 f3 f4 env st hst)

/-- C5 amended: when a previously fully indexed repository is re-indexed
after its commit hash changed (no force flags) and the fetch succeeds, the
chunk stage executes, but it is diff-scoped to the changed files whenever
at least one file was added or modified, and it chunks the whole file set
(after deleting all existing chunks) only when the changed set is empty;
the embed stage runs exactly when chunking produced chunks; and after a
run that completes without raising, the chunk store contains no chunks
referencing any file deleted between the two snapshots. -/
theorem C5_amended_diff_scope_and_no_orphans
    (ex : RepositoryInfo) (c2 : String) (env : Env) (dl : DownloadedInfo)
    (_hdl : ex.download_successful = true) (_hchk : ex.chunking_successful = true)
    (_hemb : ex.embedding_successful = true)
    (hcommit : ex.commit_hash ≠ some c2)
    (hfh : ex.file_hashes ≠ [])
    (hfetch : env.fetch = FetchOutcome.ok dl)
    (hchunker : ∀ p, ∀ c ∈ fileChunksOf (env.chunkFile p), c.file_path = p)
    (hchunkAll : ∀ c ∈ chunkAllChunks env.chunkAllResult,
        c.file_path ∈ dl.file_hashes.map Prod.fst)
    (hok : (index_repository (some ex) c2 false false false false env).raised = false) :
    (index_repository (some ex) c2 false false false false env).chunkStageExecuted = true
    ∧ (index_repository (some ex) c2 false false false false env).diffScoped =
        !(files_to_chunk ex.file_hashes dl.file_hashes).isEmpty
    ∧ (index_repository (some ex) c2 false false false false env).embedStageExecuted =
        !((index_repository (some ex) c2 false false false false env).chunksProduced).isEmpty
    ∧ (∀ store c, c ∈ applyOps store (index_repository (some ex) c2 false false false false env).ops →
        c.file_path ∉ files_to_delete ex.file_hashes dl.file_hashes) := by
  have hie : ex.file_hashes.isEmpty = false := by
    cases hx : ex.file_hashes with
    | nil => exact absurd hx hfh
    | cons a l => rfl
  have hA : (commitTruthy ex.commit_hash && commitEq ex.commit_hash c2 && !false) = false := by
    cases hcc : ex.commit_hash with
    | none => simp [commitTruthy]
    | some s =>
      have hs : s ≠ c2 := fun h => hcommit (by rw [hcc, h])
      simp [commitTruthy, commitEq, beq_eq_false_iff_ne.mpr hs]
  have hrun : index_repository (some ex) c2 false false false false env =
      stage3 (stage2 (some ex)
          { commit_hash := some c2
            download_successful := true
            chunking_successful := false
            embedding_successful := false
            file_hashes := dl.file_hashes
            num_files := dl.num_files
            num_chunks := ex.num_chunks
            last_indexed := none }
          true true false
          (files_to_chunk ex.file_hashes dl.file_hashes)
          (files_to_delete ex.file_hashes dl.file_hashes) env)
        true true
        [DbOp.add_repository
          { commit_hash := some c2
            download_successful := true
            chunking_successful := false
            embedding_successful := false
            file_hashes := dl.file_hashes
            num_files := dl.num_files
            num_chunks := ex.num_chunks
            last_indexed := none }]
        true env := by
    unfold index_repository
    dsimp only
    rw [if_neg (fun hcon => Bool.false_ne_true (hA ▸ hcon))]
    rw [runPipeline_okFetch _ _ _ _ _ _ dl hfetch]
    unfold downloadOkRun afterDownload
    dsimp only
    simp only [hie, Bool.false_eq_true, if_false, Bool.not_false, if_true, ite_self]
    rfl
  rw [hrun] at hok ⊢
  cases hsc : (files_to_chunk ex.file_hashes dl.file_hashes).isEmpty with
  | true =>
    have hs2 : stage2 (some ex)
        { commit_hash := some c2
          download_successful := true
          chunking_successful := false
          embedding_successful := false
          file_hashes := dl.file_hashes
          num_files := dl.num_files
          num_chunks := ex.num_chunks
          last_indexed := none }
        true true false
        (files_to_chunk ex.file_hashes dl.file_hashes)
        (files_to_delete ex.file_hashes dl.file_hashes) env =
        { ops := [DbOp.delete_repository_chunks, DbOp.add_repository
            { commit_hash := some c2
              download_successful := true
              chunking_successful := chunkAllOk env.chunkAllResult
              embedding_successful := false
              file_hashes := dl.file_hashes
              num_files := dl.num_files
              num_chunks := ex.num_chunks
              last_indexed := none }]
          chunks := chunkAllChunks env.chunkAllResult
          ri := { commit_hash := some c2
                  download_successful := true
                  chunking_successful := chunkAllOk env.chunkAllResult
                  embedding_successful := false
                  file_hashes := dl.file_hashes
                  num_files := dl.num_files
                  num_chunks := ex.num_chunks
                  last_indexed := none }
          raised := chunkAllRaises env.chunkAllResult
          executed := true
          diffScoped := false } := by
      unfold stage2
      simp only [hsc]
      rfl
    rw [hs2] at hok ⊢
    have hnr : chunkAllRaises env.chunkAllResult = false := by
      cases hca : env.chunkAllResult with
      | ok cs => rfl
      | decodeError cs => rfl
      | otherError cs =>
        rw [hca] at hok
        simp [stage3Raised, chunkAllRaises] at hok
    refine ⟨rfl, rfl, ?_, ?_⟩
    · simp only [stage3_embedStageExecuted_eq, stage3_chunksProduced_eq]
      unfold stage3Embed
      dsimp only
      rw [hnr]
      simp
    · intro store c hc
      simp only [stage3_ops_eq] at hc
      rw [applyOps_append, applyOps_append, applyOps_add] at hc
      rcases applyOps_stage3Ops _ _ _ _ _ _ hc with hbase | hchunks
      · simp [applyOps, applyOp] at hbase
      · intro hmem
        exact files_to_delete_not_in_new hmem (hchunkAll c hchunks)
  | false =>
    have hs2 : stage2 (some ex)
        { commit_hash := some c2
          download_successful := true
          chunking_successful := false
          embedding_successful := false
          file_hashes := dl.file_hashes
          num_files := dl.num_files
          num_chunks := ex.num_chunks
          last_indexed := none }
        true true false
        (files_to_chunk ex.file_hashes dl.file_hashes)
        (files_to_delete ex.file_hashes dl.file_hashes) env =
        { ops := (files_to_delete ex.file_hashes dl.file_hashes).map DbOp.delete_file_chunks ++
            (chunkLoop env (files_to_chunk ex.file_hashes dl.file_hashes)).1 ++
              [DbOp.add_repository
                { commit_hash := some c2
                  download_successful := true
                  chunking_successful := loopOk (chunkLoop env (files_to_chunk ex.file_hashes dl.file_hashes)).2.2
                  embedding_successful := false
                  file_hashes := dl.file_hashes
                  num_files := dl.num_files
                  num_chunks := ex.num_chunks
                  last_indexed := none }]
          chunks := (chunkLoop env (files_to_chunk ex.file_hashes dl.file_hashes)).2.1
          ri := { commit_hash := some c2
                  download_successful := true
                  chunking_successful := loopOk (chunkLoop env (files_to_chunk ex.file_hashes dl.file_hashes)).2.2
                  embedding_successful := false
                  file_hashes := dl.file_hashes
                  num_files := dl.num_files
                  num_chunks := ex.num_chunks
                  last_indexed := none }
          raised := loopRaises (chunkLoop env (files_to_chunk ex.file_hashes dl.file_hashes)).2.2
          executed := true
          diffScoped := true } := by
      unfold stage2
      simp only [hsc]
      rfl
    rw [hs2] at hok ⊢
    have hnr : loopRaises (chunkLoop env (files_to_chunk ex.file_hashes dl.file_hashes)).2.2 = false := by
      cases hlo : (chunkLoop env (files_to_chunk ex.file_hashes dl.file_hashes)).2.2 with
      | done => rfl
      | decodeAbort => rfl
      | errorAbort =>
        rw [hlo] at hok
        simp [stage3Raised, loopRaises] at hok
    refine ⟨rfl, rfl, ?_, ?_⟩
    · simp only [stage3_embedStageExecuted_eq, stage3_chunksProduced_eq]
      unfold stage3Embed
      dsimp only
      rw [hnr]
      simp
    · intro store c hc
      simp only [stage3_ops_eq] at hc
      rw [applyOps_append, applyOps_append, applyOps_add] at hc
      rcases applyOps_stage3Ops _ _ _ _ _ _ hc with hbase | hchunks
      · exact (partial_ops_no_orphan env _ _ _ store c hbase).2
      · intro hmem
        exact files_to_delete_not_in_new hmem
          (files_to_chunk_subset (chunkLoop_chunks_mem env hchunker _ c hchunks))

/-- C5 amended witness: re-indexing exFull at commit c2 after x.py changed
hash, under envC5. -/
theorem C5_amended_diff_scope_and_no_orphans_witness :
    (index_repository (some exFull) cHash2 false false false false envC5).chunkStageExecuted = true
    ∧ (index_repository (some exFull) cHash2 false false false false envC5).diffScoped =
        !(files_to_chunk exFull.file_hashes dlC5.file_hashes).isEmpty := by
  have h := C5_amended_diff_scope_and_no_orphans exFull cHash2 envC5 dlC5
    rfl rfl rfl (by decide) (by decide) rfl
    (by
      intro p c hc
      simp only [envC5, envTriv, fileChunksOf] at hc
      rcases List.mem_singleton.mp hc with rfl
      rfl)
    (by
      intro c hc
      simp [envC5, envTriv, chunkAllChunks] at hc)
    (by decide)
  exact ⟨h.1, h.2.1⟩

end RepoSearch
